import Mathlib

/-!
Shallow embedding of the alert-evaluation and trade-execution engine of the
concentric-ticker repository.  Prices and percentages are modelled as
rationals, JavaScript Date values as natural numbers counting milliseconds
since the epoch (the embedding has no time-zone offset, matching a UTC
runtime), and the browser localStorage stores as explicit lists threaded
through the evaluation functions.  Collaborators that perform I/O (audio,
toasts, the exchange network client) are modelled as parameters or as
emitted events.
-/

namespace ConcentricTicker

/-! ### Data model: packages/shared/src/lib/localStore.ts and lib/trading/types.ts -/

inductive AlertType where
  | price_cross
  | percentage_change
  | volume_spike
  | trailing_stop
deriving DecidableEq

inductive Direction where
  | above
  | below
deriving DecidableEq

inductive AlertStatus where
  | active
  | triggered
  | cancelled
deriving DecidableEq

/-- `LocalAlert` of localStore.ts.  `trailing_percent` and `trailing_high` are
optional numeric fields; the timestamp fields `created_at` and `triggered_at`
play no role in evaluation and are omitted.  The optional `trade_enabled`
flag defaults to `false` (a JavaScript `undefined` is falsy).  The optional
trade side, quantity and account type only feed the dispatched order and are
not needed by the evaluation engine. -/
structure LocalAlert where
  id : String
  symbol : String
  target_price : ℚ
  direction : Direction
  alert_type : AlertType
  trailing_percent : Option ℚ := none
  trailing_high : Option ℚ := none
  status : AlertStatus := .active
  trade_enabled : Bool := false
deriving DecidableEq

/-! ### Per-alert decision of the evaluation loop
(packages/shared/src/hooks/useAlertChecker.ts, lines 207-261).
The loop body for one alert either does nothing, writes a new watermark and
trigger price back to the store, or triggers the alert; these three outcomes
are reified as an action. -/

inductive AlertAction where
  | noop
  | updateTrail (trailing_high target_price : ℚ)
  | trigger
deriving DecidableEq

/-- The decision taken by one iteration of the evaluation loop for one alert
at the current price.  JavaScript truthiness of `alert.trailing_percent` and
`alert.trailing_high || currentPrice` (an absent or zero value is falsy) is
rendered by the `none` and `= 0` cases. -/
def alertAction (alert : LocalAlert) (currentPrice : ℚ) : AlertAction :=
  match alert.alert_type with
  | .price_cross =>
      match alert.direction with
      | .above => if currentPrice ≥ alert.target_price then .trigger else .noop
      | .below => if currentPrice ≤ alert.target_price then .trigger else .noop
  | .percentage_change =>
      match alert.trailing_percent with
      | none => .noop
      | some tp =>
          if tp = 0 then .noop
          else
            let changePercent := (currentPrice - alert.target_price) / alert.target_price * 100
            match alert.direction with
            | .above => if changePercent ≥ tp then .trigger else .noop
            | .below => if changePercent ≤ -tp then .trigger else .noop
  | .trailing_stop =>
      match alert.trailing_percent with
      | none => .noop
      | some tp =>
          if tp = 0 then .noop
          else
            let highWatermark : ℚ :=
              match alert.trailing_high with
              | none => currentPrice
              | some h => if h = 0 then currentPrice else h
            match alert.direction with
            | .above =>
                if currentPrice > highWatermark then
                  .updateTrail currentPrice (currentPrice * (1 - tp / 100))
                else if currentPrice ≤ alert.target_price then .trigger
                else .noop
            | .below =>
                if currentPrice < highWatermark then
                  .updateTrail currentPrice (currentPrice * (1 + tp / 100))
                else if currentPrice ≥ alert.target_price then .trigger
                else .noop
  | .volume_spike => .noop

/-! ### The engine state machine (useAlertChecker.ts) -/

/-- The alert store (`getAlerts`) together with the session trigger-guard
set `triggeredIds` held in a ref by the hook. -/
structure EngineState where
  alerts : List LocalAlert
  triggeredIds : List String
deriving DecidableEq

/-- Observable side effects of a pass: the status write plus toast and audio
cue on a trigger, and the asynchronous hand-off to `executeAlertTrade`. -/
inductive EngineEvent where
  | alertTriggered (id : String)
  | tradeDispatched (id : String)
deriving DecidableEq

/-- `updateAlert(id, { status: 'triggered', ... })` of localStore.ts. -/
def updateAlertStatusTriggered (alerts : List LocalAlert) (id : String) : List LocalAlert :=
  alerts.map fun a => if a.id = id then { a with status := .triggered } else a

/-- `updateAlert(id, { trailing_high, target_price })` of localStore.ts as
issued by the trailing-stop watermark update. -/
def updateAlertTrail (alerts : List LocalAlert) (id : String) (hi target : ℚ) :
    List LocalAlert :=
  alerts.map fun a =>
    if a.id = id then { a with trailing_high := some hi, target_price := target } else a

/-- `triggerAlert` (useAlertChecker.ts, lines 132-191): early-return on the
session guard, otherwise record the id, persist the triggered status, notify,
and dispatch a trade when configured. -/
def triggerAlert (st : EngineState) (alert : LocalAlert) : EngineState × List EngineEvent :=
  if alert.id ∈ st.triggeredIds then (st, [])
  else
    ({ alerts := updateAlertStatusTriggered st.alerts alert.id,
       triggeredIds := alert.id :: st.triggeredIds },
     [EngineEvent.alertTriggered alert.id] ++
       (if alert.trade_enabled then [EngineEvent.tradeDispatched alert.id] else []))

/-- One iteration of the evaluation loop for one alert: skip when the symbol
has no price or the alert is already in the session guard, otherwise act on
the decision. -/
def processAlert (st : EngineState) (priceData : String → Option ℚ) (alert : LocalAlert) :
    EngineState × List EngineEvent :=
  match priceData alert.symbol with
  | none => (st, [])
  | some currentPrice =>
      if alert.id ∈ st.triggeredIds then (st, [])
      else
        match alertAction alert currentPrice with
        | .noop => (st, [])
        | .updateTrail hi target =>
            ({ st with alerts := updateAlertTrail st.alerts alert.id hi target }, [])
        | .trigger => triggerAlert st alert

/-- One evaluation pass (the body of the `useEffect` in useAlertChecker.ts):
snapshot the active alerts, then process each against the price map,
accumulating the emitted events. -/
def runPass (st : EngineState) (priceData : String → Option ℚ) :
    EngineState × List EngineEvent :=
  (st.alerts.filter fun a => a.status == AlertStatus.active).foldl
    (fun acc alert =>
      let step := processAlert acc.1 priceData alert
      (step.1, acc.2 ++ step.2))
    (st, [])

/-! ### Request transport (binanceApi data layer, fetchJsonWithRetry) -/

/-- The relevant fields of the `ApiError` class; `message` and `url` carry no
control flow and are omitted. -/
structure ApiError where
  code : String
  attempt : ℕ
  status : Option ℕ := none
  retryAfterSec : Option ℕ := none
deriving DecidableEq

/-- What one attempt observes: either an HTTP response with a status code
(and, when present and parseable, the Retry-After header in seconds), or a
thrown AbortError (timeout) or TypeError (network failure). -/
inductive AttemptOutcome where
  | response (status : ℕ) (retryAfter : Option ℕ := none)
  | abortError
  | typeError
deriving DecidableEq

/-- `isRetryableError(error, status?)`: the first argument is the `name` of
the caught value when it is an `Error` instance. -/
def isRetryableError (errorName : Option String) (status : Option ℕ) : Bool :=
  if errorName = some ("AbortError") then true
  else if errorName = some ("TypeError") then true
  else
    match status with
    | some s => if s = 429 then true else if 500 ≤ s ∧ s < 600 then true else false
    | none => false

/-- The un-jittered backoff before the attempt after attempt `attempt`:
`baseDelay * Math.pow(2, attempt - 1)`. -/
def backoffDelay (baseDelay attempt : ℕ) : ℕ := baseDelay * 2 ^ (attempt - 1)

/-- `addJitter(delay, jitterPercent)` with the uniform `randomFactor` in
[-1, 1] made explicit: `Math.round(delay + jitter * randomFactor)`. -/
def addJitter (delay jitterPercent randomFactor : ℚ) : ℤ :=
  let jitter := delay * (jitterPercent / 100)
  round (delay + jitter * randomFactor)

inductive FetchResult where
  | success (attempt : ℕ)
  | failure (e : ApiError)
deriving DecidableEq

/-- Net effect of one attempt of `fetchJsonWithRetry`: a 2xx returns; a 429
builds a RATE_LIMITED `ApiError` and throws it, and the catch block then
consults `isRetryableError` on it without forwarding its status, deciding
whether to continue; any other non-2xx builds an HTTP_ERROR and retries
exactly when `isRetryableError(error, status)` holds; AbortError and
TypeError are converted to ABORT_TIMEOUT and NETWORK_ERROR and retried
when `isRetryableError` accepts the original error. -/
inductive StepResult where
  | done (r : FetchResult)
  | retryStep (lastError : ApiError)
deriving DecidableEq

def attemptStep (outcome : AttemptOutcome) (attempt : ℕ) : StepResult :=
  match outcome with
  | .response s retryAfter =>
      if 200 ≤ s ∧ s ≤ 299 then .done (.success attempt)
      else if s = 429 then
        if isRetryableError (some ("ApiError")) none then
          .retryStep { code := "RATE_LIMITED", attempt := attempt,
                       status := some s, retryAfterSec := retryAfter }
        else
          .done (.failure { code := "RATE_LIMITED", attempt := attempt,
                            status := some s, retryAfterSec := retryAfter })
      else
        if isRetryableError (some ("ApiError")) (some s) then
          .retryStep { code := "HTTP_ERROR", attempt := attempt, status := some s }
        else
          .done (.failure { code := "HTTP_ERROR", attempt := attempt, status := some s })
  | .abortError =>
      if isRetryableError (some ("AbortError")) none then
        .retryStep { code := "ABORT_TIMEOUT", attempt := attempt }
      else
        .done (.failure { code := "ABORT_TIMEOUT", attempt := attempt })
  | .typeError =>
      if isRetryableError (some ("TypeError")) none then
        .retryStep { code := "NETWORK_ERROR", attempt := attempt }
      else
        .done (.failure { code := "NETWORK_ERROR", attempt := attempt })

/-- The attempt loop of `fetchJsonWithRetry`.  `fuel` bounds the recursion
(entered with `maxAttempts`), `attempt` is the 1-based attempt counter and
`delays` accumulates the un-jittered backoff waits applied so far.  Returns
the result, the number of attempts made, and the applied delays. -/
def fetchLoop (att : ℕ → AttemptOutcome) (maxAttempts baseDelay : ℕ) :
    ℕ → ℕ → List ℕ → FetchResult × ℕ × List ℕ
  | 0, attempt, delays =>
      (.failure { code := "RETRY_EXHAUSTED", attempt := maxAttempts }, attempt - 1, delays)
  | fuel + 1, attempt, delays =>
      match attemptStep (att attempt) attempt with
      | .done r => (r, attempt, delays)
      | .retryStep _ =>
          if attempt < maxAttempts then
            fetchLoop att maxAttempts baseDelay fuel (attempt + 1)
              (delays ++ [backoffDelay baseDelay attempt])
          else
            (.failure { code := "RETRY_EXHAUSTED", attempt := maxAttempts }, attempt, delays)

/-- `fetchJsonWithRetry(input, init, config)` with the per-attempt network
behaviour abstracted as `att`. -/
def fetchJsonWithRetry (att : ℕ → AttemptOutcome) (maxAttempts baseDelay : ℕ) :
    FetchResult × ℕ × List ℕ :=
  fetchLoop att maxAttempts baseDelay maxAttempts 1 []

/-! ### DCA schedule computation (lib/trading/dcaStore.ts) -/

def msPerMinute : ℕ := 60000
def msPerHour : ℕ := 3600000
def msPerDay : ℕ := 86400000

/-- `Date.prototype.getMinutes` for a UTC runtime. -/
def getMinutes (t : ℕ) : ℕ := t / msPerMinute % 60

/-- `Date.prototype.getSeconds` for a UTC runtime. -/
def getSeconds (t : ℕ) : ℕ := t / 1000 % 60

/-- `Date.prototype.getDay` (0 = Sunday; the epoch was a Thursday). -/
def getDay (t : ℕ) : ℕ := (t / msPerDay + 4) % 7

/-- `setMinutes(0, 0, 0)`: truncate to the top of the hour. -/
def hourFloor (t : ℕ) : ℕ := t - t % msPerHour

/-- `setHours(h, m, 0, 0)` re-bases from midnight of the same day. -/
def dayFloor (t : ℕ) : ℕ := t - t % msPerDay

inductive Frequency where
  | hourly
  | daily
  | weekly
deriving DecidableEq

/-- `scheduledTime`: the strings `'start'` and `'end'` for hourly
strategies, or an `'HH:MM'` string (parsed by `split(':').map(Number)`)
for daily and weekly ones. -/
inductive ScheduledTime where
  | atStart
  | atEnd
  | hhmm (hh mm : ℕ)
deriving DecidableEq

/-- `computeNextExecution(frequency, scheduledTime, dayOfWeek, from)`.
Returns `none` exactly where the source would throw a RangeError from
`toISOString` on an Invalid Date (a daily or weekly schedule whose
`scheduledTime` does not parse as `HH:MM`); all other inputs return the
computed timestamp. -/
def computeNextExecution (frequency : Frequency) (scheduledTime : ScheduledTime)
    (dayOfWeek : Option ℕ) (now : ℕ) : Option ℕ :=
  match frequency with
  | .hourly =>
      match scheduledTime with
      | .atEnd =>
          let next := hourFloor now + 55 * msPerMinute
          some (if next ≤ now then next + msPerHour else next)
      | .atStart =>
          let next := hourFloor now + msPerHour
          some (if getMinutes now = 0 ∧ getSeconds now < 30 then next - msPerHour else next)
      | .hhmm _ _ =>
          some (hourFloor now + msPerHour)
  | .daily =>
      match scheduledTime with
      | .hhmm hh mm =>
          let next := dayFloor now + hh * msPerHour + mm * msPerMinute
          some (if next ≤ now then next + msPerDay else next)
      | _ => none
  | .weekly =>
      match dayOfWeek with
      | none => some (now + 3600000)
      | some dw =>
          match scheduledTime with
          | .hhmm hh mm =>
              let next := dayFloor now + hh * msPerHour + mm * msPerMinute
              let d0 : ℤ := (dw : ℤ) - (getDay next : ℤ)
              let d1 : ℤ := if d0 < 0 then d0 + 7 else d0
              let d2 : ℤ := if d1 = 0 ∧ next ≤ now then 7 else d1
              some (next + d2.toNat * msPerDay)
          | _ => none

/-! ### DCA strategies and the scheduler (dcaStore.ts, useDCAScheduler) -/

/-- `DCAStrategy` of dcaStore.ts.  The source stores `quoteAmount`,
`totalBudget` and `totalSpent` as strings and applies `parseFloat` before
arithmetic; they are modelled directly as the parsed numbers.
`nextExecuteAt` is an ISO timestamp, modelled in epoch milliseconds.
`symbol`, `side`, `accountType` and the bookkeeping timestamps
`lastExecutedAt`/`createdAt` do not influence the scheduling logic. -/
structure DCAStrategy where
  id : String
  quoteAmount : ℚ
  totalBudget : ℚ
  totalSpent : ℚ
  executionCount : ℕ
  frequency : Frequency
  scheduledTime : ScheduledTime
  dayOfWeek : Option ℕ := none
  enabled : Bool
  nextExecuteAt : ℕ
deriving DecidableEq

/-- The DCA store together with the session set of composite
`(strategyId, nextExecuteAt)` keys held in the `executedKeys` ref. -/
structure SchedulerState where
  strategies : List DCAStrategy
  executedKeys : List (String × ℕ)
deriving DecidableEq

/-- The `updates` object written by `executeStrategy` after a trade attempt
(useDCAScheduler, lines 256-277): spend the per-period amount, advance the
run counter, recompute the schedule, and force `enabled := false` when the
new total spend reaches the budget. -/
def applyExecutionUpdates (s : DCAStrategy) (nextAt : ℕ) : DCAStrategy :=
  let newTotalSpent := s.totalSpent + s.quoteAmount
  let budgetExhausted := s.totalBudget ≤ newTotalSpent
  { s with
    totalSpent := newTotalSpent,
    executionCount := s.executionCount + 1,
    nextExecuteAt := nextAt,
    enabled := if budgetExhausted then false else s.enabled }

/-- `executeStrategy`: skip when the `(id, nextExecuteAt)` key has already
executed this session, otherwise record the key, dispatch the trade (whose
success `tradeOk` does not influence the bookkeeping), and write the
updates.  Returns `none` where recomputing the schedule would throw, and
otherwise the new state together with whether an execution happened. -/
def executeStrategy (st : SchedulerState) (tradeOk : Bool) (now : ℕ)
    (strategy : DCAStrategy) : Option (SchedulerState × Bool) :=
  if (strategy.id, strategy.nextExecuteAt) ∈ st.executedKeys then some (st, false)
  else
    match computeNextExecution strategy.frequency strategy.scheduledTime
        strategy.dayOfWeek now with
    | none => none
    | some nextAt =>
        some
          ({ strategies := st.strategies.map fun s =>
               if s.id = strategy.id then applyExecutionUpdates s nextAt else s,
             executedKeys := (strategy.id, strategy.nextExecuteAt) :: st.executedKeys },
           true)

/-- One `check` cycle of the scheduler: snapshot the stored strategies and
execute every enabled one whose `nextExecuteAt` is due. -/
def checkCycle (st : SchedulerState) (tradeOk : Bool) (now : ℕ) : Option SchedulerState :=
  st.strategies.foldl
    (fun acc strategy =>
      match acc with
      | none => none
      | some s =>
          if strategy.enabled = true ∧ strategy.nextExecuteAt ≤ now then
            match executeStrategy s tradeOk now strategy with
            | none => none
            | some (s2, _) => some s2
          else some s)
    (some st)

/-! ### Trade dispatchers (executeAlertTrade.ts, executeDCATrade.ts) -/

/-- `StoredKeys` of keyStore.ts. -/
structure StoredKeys where
  apiKey : String
  apiSecret : String
deriving DecidableEq

/-- `TradeResult` / `DCATradeResult`: `{ success, order?, error? }`.  The
order payload is reduced to its id. -/
structure TradeResult where
  success : Bool
  order : Option ℕ := none
  error : Option String := none
deriving DecidableEq

/-- Distinguishes a value returned to the caller from an exception escaping
the dispatcher. -/
inductive Dispatch (α : Type) where
  | returns (value : α)
  | throws (msg : String)
deriving DecidableEq

/-- `executeAlertTrade(alert)`: `null` when no trade is configured, a typed
failure when no keys are stored, and otherwise the try/catch around
`syncTime` and `placeLimitOrder` (the collaborators are parameters giving
either their value or the message of the error they throw). -/
def executeAlertTrade (alert : LocalAlert) (keys : Option StoredKeys)
    (syncTime : Except String Unit) (placeLimitOrder : Except String ℕ) :
    Dispatch (Option TradeResult) :=
  if alert.trade_enabled = false then .returns none
  else
    match keys with
    | none => .returns (some { success := false, error := some ("No API keys configured") })
    | some _ =>
        match syncTime with
        | .error e => .returns (some { success := false, error := some e })
        | .ok _ =>
            match placeLimitOrder with
            | .error e => .returns (some { success := false, error := some e })
            | .ok orderId => .returns (some { success := true, order := some orderId })

/-- `executeDCATrade(strategy)`: same shape without the trade-enabled guard
and with a market instead of a limit order. -/
def executeDCATrade (strategy : DCAStrategy) (keys : Option StoredKeys)
    (syncTime : Except String Unit) (placeMarketOrder : Except String ℕ) :
    Dispatch TradeResult :=
  match keys with
  | none => .returns { success := false, error := some ("No API keys configured") }
  | some _ =>
      match syncTime with
      | .error e => .returns { success := false, error := some e }
      | .ok _ =>
          match placeMarketOrder with
          | .error e => .returns { success := false, error := some e }
          | .ok orderId => .returns { success := true, order := some orderId }

/-! ### The trailing-alert creation UI
(apps/desktop/src/components/alerts/TrailingAlertManager.tsx,
`addTrailingAlert`, lines 281-296, composed with `createAlert` of
localStore.ts which assigns the id and `status: 'active'`). -/

/-- The `LocalAlert` record persisted by `addTrailingAlert` once its input
validation has passed; `trailDirectionUp` is `trailDirection === 'up'` and
`id` stands for the generated identifier. -/
def addTrailingAlertBuild (symbol : String) (trailDirectionUp : Bool) (percentage : ℚ)
    (currentPrice : ℚ) (autoTrigger : Bool) (manualTriggerPrice : ℚ) (id : String) :
    LocalAlert :=
  let triggerPrice :=
    if autoTrigger then
      if trailDirectionUp then currentPrice * (1 - percentage / 100)
      else currentPrice * (1 + percentage / 100)
    else manualTriggerPrice
  { id := id,
    symbol := symbol,
    target_price := triggerPrice,
    direction := if trailDirectionUp then .above else .below,
    alert_type := .trailing_stop,
    trailing_percent := some percentage,
    trailing_high := if trailDirectionUp then some currentPrice else none,
    status := .active }

/-! ### General lemmas about the evaluation engine -/

theorem processAlert_of_mem (st : EngineState) (pd : String → Option ℚ) (a : LocalAlert)
    (h : a.id ∈ st.triggeredIds) : processAlert st pd a = (st, []) := by
  unfold processAlert
  cases pd a.symbol with
  | none => rfl
  | some p => simp [h]

theorem triggerAlert_of_mem (st : EngineState) (a : LocalAlert)
    (h : a.id ∈ st.triggeredIds) : triggerAlert st a = (st, []) := by
  unfold triggerAlert
  rw [if_pos h]

theorem processAlert_action_eq (st : EngineState) (pd : String → Option ℚ)
    (a : LocalAlert) (p : ℚ) (h1 : pd a.symbol = some p) (h2 : a.id ∉ st.triggeredIds) :
    processAlert st pd a =
      match alertAction a p with
      | .noop => (st, [])
      | .updateTrail hi target =>
          ({ st with alerts := updateAlertTrail st.alerts a.id hi target }, [])
      | .trigger => triggerAlert st a := by
  unfold processAlert
  rw [h1]
  dsimp only
  rw [if_neg h2]

/-- A single alert evaluation never both rewrites the trailing fields and
emits an event: a trigger only touches `status`, a watermark update emits
nothing. -/
theorem processAlert_events_or_trail_unchanged (st : EngineState)
    (pd : String → Option ℚ) (a : LocalAlert) :
    (processAlert st pd a).2 = [] ∨
    (processAlert st pd a).1.alerts.map (fun b => (b.trailing_high, b.target_price)) =
      st.alerts.map (fun b => (b.trailing_high, b.target_price)) := by
  unfold processAlert
  cases pd a.symbol with
  | none => exact Or.inl rfl
  | some p =>
    dsimp only
    by_cases hm : a.id ∈ st.triggeredIds
    · rw [if_pos hm]; exact Or.inl rfl
    · rw [if_neg hm]
      cases alertAction a p with
      | noop => exact Or.inl rfl
      | updateTrail hi target => exact Or.inl rfl
      | trigger =>
        unfold triggerAlert
        rw [if_neg hm]
        refine Or.inr ?_
        simp only [updateAlertStatusTriggered, List.map_map]
        refine List.map_congr_left ?_
        intro b _
        by_cases hb : b.id = a.id
        · simp [hb]
        · simp [hb]

/-! ### Claim C1: the trailing-stop ratchet -/

/-- The concrete ratchet scenario of the spec: direction above, 5 percent,
watermark 100, trigger price 95. -/
def ratchetAlert : LocalAlert :=
  { id := "t1", symbol := "BTCUSDT", target_price := 95, direction := .above,
    alert_type := .trailing_stop, trailing_percent := some 5, trailing_high := some 100 }

/-- A price map carrying a single BTCUSDT price. -/
def btcPrice (p : ℚ) : String → Option ℚ :=
  fun s => if s = ("BTCUSDT") then some p else none

/-- The ratchet alert after the watermark update at price 110. -/
def ratchetAlertAfter : LocalAlert :=
  { ratchetAlert with trailing_high := some 110, target_price := 209 / 2 }

/-- Claim C1: for an active trailing_stop alert with nonzero trailingPercent,
stored nonzero watermark `w` and direction above, an evaluation pass writes
back `trailing_high = price` and `target_price = price * (1 - trailingPercent/100)`
without triggering when `price > w`; otherwise it triggers exactly when
`price ≤ target_price`; symmetrically for direction below with
`price * (1 + trailingPercent/100)`; a watermark update and a trigger never
both occur in the same pass; and the concrete scenario (5 percent, watermark
100, trigger 95: feeding 110 moves the watermark to 110 and the trigger to
104.5 without triggering, then feeding 104 triggers) behaves as stated. -/
theorem trailing_stop_ratchet (st : EngineState) (pd : String → Option ℚ)
    (a : LocalAlert) (p tp w : ℚ)
    (hty : a.alert_type = .trailing_stop) (hst : a.status = .active)
    (htp : a.trailing_percent = some tp) (htp0 : tp ≠ 0)
    (hth : a.trailing_high = some w) (hw0 : w ≠ 0)
    (hpd : pd a.symbol = some p) (hg : a.id ∉ st.triggeredIds) :
    (a.direction = .above →
      (w < p →
        processAlert st pd a =
          ({ st with alerts := updateAlertTrail st.alerts a.id p (p * (1 - tp / 100)) }, [])) ∧
      (p ≤ w → p ≤ a.target_price →
        EngineEvent.alertTriggered a.id ∈ (processAlert st pd a).2) ∧
      (p ≤ w → a.target_price < p → processAlert st pd a = (st, []))) ∧
    (a.direction = .below →
      (p < w →
        processAlert st pd a =
          ({ st with alerts := updateAlertTrail st.alerts a.id p (p * (1 + tp / 100)) }, [])) ∧
      (w ≤ p → a.target_price ≤ p →
        EngineEvent.alertTriggered a.id ∈ (processAlert st pd a).2) ∧
      (w ≤ p → p < a.target_price → processAlert st pd a = (st, []))) ∧
    ((processAlert st pd a).2 = [] ∨
      (processAlert st pd a).1.alerts.map (fun b => (b.trailing_high, b.target_price)) =
        st.alerts.map (fun b => (b.trailing_high, b.target_price))) ∧
    (runPass { alerts := [ratchetAlert], triggeredIds := [] } (btcPrice 110) =
      ({ alerts := [ratchetAlertAfter], triggeredIds := [] }, []) ∧
     (runPass { alerts := [ratchetAlertAfter], triggeredIds := [] } (btcPrice 104)).2 =
        [EngineEvent.alertTriggered (ratchetAlert.id)]) := by
  have hconc :
      runPass { alerts := [ratchetAlert], triggeredIds := [] } (btcPrice 110) =
        ({ alerts := [ratchetAlertAfter], triggeredIds := [] }, []) ∧
      (runPass { alerts := [ratchetAlertAfter], triggeredIds := [] } (btcPrice 104)).2 =
          [EngineEvent.alertTriggered (ratchetAlert.id)] := by
    constructor
    · norm_num [runPass, processAlert, alertAction, triggerAlert, updateAlertTrail,
        updateAlertStatusTriggered, ratchetAlert, ratchetAlertAfter, btcPrice]
    · norm_num [runPass, processAlert, alertAction, triggerAlert, updateAlertTrail,
        updateAlertStatusTriggered, ratchetAlert, ratchetAlertAfter, btcPrice]
  refine ⟨?_, ?_, processAlert_events_or_trail_unchanged st pd a, hconc⟩
  · intro hd
    refine ⟨?_, ?_, ?_⟩
    · intro hwp
      rw [processAlert_action_eq st pd a p hpd hg]
      have hact : alertAction a p = .updateTrail p (p * (1 - tp / 100)) := by
        simp only [alertAction, hty, htp, hth]
        rw [if_neg htp0, if_neg hw0, hd]
        rw [if_pos hwp]
      rw [hact]
    · intro hpw hpt
      rw [processAlert_action_eq st pd a p hpd hg]
      have hact : alertAction a p = .trigger := by
        simp only [alertAction, hty, htp, hth]
        rw [if_neg htp0, if_neg hw0, hd]
        rw [if_neg (not_lt.mpr hpw), if_pos hpt]
      rw [hact]
      unfold triggerAlert
      rw [if_neg hg]
      simp
    · intro hpw hpt
      rw [processAlert_action_eq st pd a p hpd hg]
      have hact : alertAction a p = .noop := by
        simp only [alertAction, hty, htp, hth]
        rw [if_neg htp0, if_neg hw0, hd]
        rw [if_neg (not_lt.mpr hpw), if_neg (not_le.mpr hpt)]
      rw [hact]
  · intro hd
    refine ⟨?_, ?_, ?_⟩
    · intro hwp
      rw [processAlert_action_eq st pd a p hpd hg]
      have hact : alertAction a p = .updateTrail p (p * (1 + tp / 100)) := by
        simp only [alertAction, hty, htp, hth]
        rw [if_neg htp0, if_neg hw0, hd]
        rw [if_pos hwp]
      rw [hact]
    · intro hpw hpt
      rw [processAlert_action_eq st pd a p hpd hg]
      have hact : alertAction a p = .trigger := by
        simp only [alertAction, hty, htp, hth]
        rw [if_neg htp0, if_neg hw0, hd]
        rw [if_neg (not_lt.mpr hpw), if_pos hpt]
      rw [hact]
      unfold triggerAlert
      rw [if_neg hg]
      simp
    · intro hpw hpt
      rw [processAlert_action_eq st pd a p hpd hg]
      have hact : alertAction a p = .noop := by
        simp only [alertAction, hty, htp, hth]
        rw [if_neg htp0, if_neg hw0, hd]
        rw [if_neg (not_lt.mpr hpw), if_neg (not_le.mpr hpt)]
      rw [hact]

/-- Witness for C1 at the spec's concrete input: feeding 110 to the ratchet
alert writes watermark 110 and trigger price 104.5. -/
theorem trailing_stop_ratchet_witness :
    processAlert { alerts := [ratchetAlert], triggeredIds := [] } (btcPrice 110)
        ratchetAlert =
      ({ ({ alerts := [ratchetAlert], triggeredIds := [] } : EngineState) with
          alerts := updateAlertTrail [ratchetAlert] (ratchetAlert.id) 110
            (110 * (1 - 5 / 100)) }, []) :=
  ((trailing_stop_ratchet { alerts := [ratchetAlert], triggeredIds := [] }
      (btcPrice 110) ratchetAlert 110 5 100 rfl rfl rfl (by norm_num) rfl
      (by norm_num) (by decide) (by decide)).1 rfl).1 (by norm_num)

/-! ### Claim C2: at most one trigger per alert per session -/

/-- The spec's idempotence scenario: direction above, target 100. -/
def idempotAlert : LocalAlert :=
  { id := "a1", symbol := "BTCUSDT", target_price := 100, direction := .above,
    alert_type := .price_cross }

/-- Claim C2: once `triggerAlert` has run for an alert, its id is in the
session guard set and its persisted status is `triggered`, and every later
evaluation of the alert — `processAlert` or `triggerAlert` on any state
whose guard set contains the id, at any price — changes nothing and emits
no event; the spec's scenario (direction above, target 100, price 100 fed
twice) triggers exactly once. -/
theorem alert_triggers_once_per_session (st : EngineState) (a : LocalAlert)
    (hg : a.id ∉ st.triggeredIds) :
    (a.id ∈ (triggerAlert st a).1.triggeredIds) ∧
    (∀ b, b ∈ (triggerAlert st a).1.alerts → b.id = a.id → b.status = .triggered) ∧
    (∀ st2 : EngineState, ∀ pd : String → Option ℚ, a.id ∈ st2.triggeredIds →
      processAlert st2 pd a = (st2, []) ∧ triggerAlert st2 a = (st2, [])) ∧
    ((runPass { alerts := [idempotAlert], triggeredIds := [] } (btcPrice 100)).2 =
        [EngineEvent.alertTriggered (idempotAlert.id)] ∧
      (runPass (runPass { alerts := [idempotAlert], triggeredIds := [] }
          (btcPrice 100)).1 (btcPrice 100)).2 = []) := by
  refine ⟨?_, ?_, ?_, by decide⟩
  · unfold triggerAlert
    rw [if_neg hg]
    simp
  · unfold triggerAlert
    rw [if_neg hg]
    intro b hb hid
    simp only [updateAlertStatusTriggered, List.mem_map] at hb
    obtain ⟨c, _, rfl⟩ := hb
    by_cases hc : c.id = a.id
    · simp [hc]
    · rw [if_neg hc] at hid ⊢
      exact absurd hid hc
  · intro st2 pd h2
    exact ⟨processAlert_of_mem st2 pd a h2, triggerAlert_of_mem st2 a h2⟩

/-- Witness for C2: after triggering the concrete alert its id is in the
session guard set. -/
theorem alert_triggers_once_per_session_witness :
    idempotAlert.id ∈
      (triggerAlert { alerts := [idempotAlert], triggeredIds := [] } idempotAlert).1.triggeredIds :=
  (alert_triggers_once_per_session { alerts := [idempotAlert], triggeredIds := [] }
    idempotAlert (by decide)).1

/-! ### Claim C6: price_cross evaluation -/

/-- The end-to-end scenario alert of the spec: BTCUSDT above 50000. -/
def crossAlert : LocalAlert :=
  { id := "c1", symbol := "BTCUSDT", target_price := 50000, direction := .above,
    alert_type := .price_cross }

/-- An alert whose target is already satisfied by the current price. -/
def satisfiedAlert : LocalAlert :=
  { id := "c2", symbol := "BTCUSDT", target_price := 50, direction := .above,
    alert_type := .price_cross }

/-- Claim C6: an active price_cross alert with a current price triggers
exactly when `direction = above ∧ price ≥ targetPrice` or
`direction = below ∧ price ≤ targetPrice` — a pure current-value comparison
that never writes a watermark; feeding 49000, 49500, 50000 to the
spec's end-to-end alert fires the trigger exactly once, at the third pass,
leaving the status `triggered`; and an alert whose target is already
satisfied triggers on its first evaluation. -/
theorem price_cross_trigger (st : EngineState) (pd : String → Option ℚ)
    (a : LocalAlert) (p : ℚ)
    (hty : a.alert_type = .price_cross) (hst : a.status = .active)
    (hpd : pd a.symbol = some p) (hg : a.id ∉ st.triggeredIds) :
    ((EngineEvent.alertTriggered a.id ∈ (processAlert st pd a).2) ↔
      ((a.direction = .above ∧ p ≥ a.target_price) ∨
       (a.direction = .below ∧ p ≤ a.target_price))) ∧
    (∀ hi target, alertAction a p ≠ .updateTrail hi target) ∧
    ((runPass { alerts := [crossAlert], triggeredIds := [] } (btcPrice 49000)).2 = [] ∧
     (runPass (runPass { alerts := [crossAlert], triggeredIds := [] }
         (btcPrice 49000)).1 (btcPrice 49500)).2 = [] ∧
     (runPass (runPass (runPass { alerts := [crossAlert], triggeredIds := [] }
         (btcPrice 49000)).1 (btcPrice 49500)).1 (btcPrice 50000)) =
       ({ alerts := [{ crossAlert with status := .triggered }],
          triggeredIds := [crossAlert.id] },
        [EngineEvent.alertTriggered (crossAlert.id)])) ∧
    ((runPass { alerts := [satisfiedAlert], triggeredIds := [] } (btcPrice 60)).2 =
      [EngineEvent.alertTriggered (satisfiedAlert.id)]) := by
  refine ⟨?_, ?_, by decide, by decide⟩
  · rw [processAlert_action_eq st pd a p hpd hg]
    cases hd : a.direction with
    | above =>
      by_cases hc : p ≥ a.target_price
      · have hact : alertAction a p = .trigger := by
          simp only [alertAction, hty, hd]
          rw [if_pos hc]
        rw [hact]
        unfold triggerAlert
        rw [if_neg hg]
        simp [hc]
      · have hact : alertAction a p = .noop := by
          simp only [alertAction, hty, hd]
          rw [if_neg hc]
        rw [hact]
        simp [hc]
    | below =>
      by_cases hc : p ≤ a.target_price
      · have hact : alertAction a p = .trigger := by
          simp only [alertAction, hty, hd]
          rw [if_pos hc]
        rw [hact]
        unfold triggerAlert
        rw [if_neg hg]
        simp [hc]
      · have hact : alertAction a p = .noop := by
          simp only [alertAction, hty, hd]
          rw [if_neg hc]
        rw [hact]
        simp [hc]
  · intro hi target
    simp only [alertAction, hty]
    cases a.direction <;> (repeat' split) <;> simp

/-- Witness for C6: the end-to-end alert evaluated at exactly its target
price emits the trigger event. -/
theorem price_cross_trigger_witness :
    EngineEvent.alertTriggered (crossAlert.id) ∈
      (processAlert { alerts := [crossAlert], triggeredIds := [] }
        (btcPrice 50000) crossAlert).2 :=
  (price_cross_trigger { alerts := [crossAlert], triggeredIds := [] }
      (btcPrice 50000) crossAlert 50000 rfl rfl (by decide) (by decide)).1.mpr
    (Or.inl ⟨rfl, by norm_num [crossAlert]⟩)

/-! ### Claim C7: percentage_change evaluation (corrected) -/

/-- A percentage_change alert whose `trailing_percent` is zero: JavaScript
treats the zero as falsy and skips the whole branch. -/
def pctZeroAlert : LocalAlert :=
  { id := "p0", symbol := "BTCUSDT", target_price := 100, direction := .above,
    alert_type := .percentage_change, trailing_percent := some 0 }

/-- Counterexample to C7 as stated: for the active percentage_change alert
with `targetPrice = 100 ≠ 0`, `trailingPercent = 0` and direction above, at
price 110 the claimed condition `changePct = 10 ≥ trailingPercent = 0`
holds, yet the evaluation does nothing (the falsy `trailing_percent` guard
skips the branch), so the alert does not trigger. -/
theorem percentage_change_zero_counterexample :
    alertAction pctZeroAlert 110 = .noop ∧
    pctZeroAlert.target_price ≠ 0 ∧
    (110 - pctZeroAlert.target_price) / pctZeroAlert.target_price * 100 ≥ (0 : ℚ) := by
  refine ⟨by norm_num [alertAction, pctZeroAlert], by norm_num [pctZeroAlert], ?_⟩
  norm_num [pctZeroAlert]

/-- The spec's sign-handling scenario: target 100, 10 percent, above. -/
def pctAlert : LocalAlert :=
  { id := "p9", symbol := "BTCUSDT", target_price := 100, direction := .above,
    alert_type := .percentage_change, trailing_percent := some 10 }

/-- Claim C7 as amended: for an active percentage_change alert with
non-zero targetPrice and non-zero trailingPercent, the evaluation computes
`changePct = (price - targetPrice) / targetPrice * 100` and triggers exactly
when `direction = above ∧ changePct ≥ trailingPercent` or
`direction = below ∧ changePct ≤ -trailingPercent`; with target 100 and 10
percent above, price 109 does not trigger and price 110 does. -/
theorem percentage_change_trigger (a : LocalAlert) (p tp : ℚ)
    (hty : a.alert_type = .percentage_change) (hst : a.status = .active)
    (htp : a.trailing_percent = some tp) (htp0 : tp ≠ 0)
    (ht0 : a.target_price ≠ 0) :
    (alertAction a p = .trigger ↔
      ((a.direction = .above ∧ (p - a.target_price) / a.target_price * 100 ≥ tp) ∨
       (a.direction = .below ∧ (p - a.target_price) / a.target_price * 100 ≤ -tp))) ∧
    (alertAction a p = .trigger ∨ alertAction a p = .noop) ∧
    alertAction pctAlert 109 = .noop ∧
    alertAction pctAlert 110 = .trigger := by
  have h109 : alertAction pctAlert 109 = .noop := by
    norm_num [alertAction, pctAlert]
  have h110 : alertAction pctAlert 110 = .trigger := by
    norm_num [alertAction, pctAlert]
  refine ⟨?_, ?_, h109, h110⟩
  · simp only [alertAction, hty, htp]
    rw [if_neg htp0]
    cases hd : a.direction with
    | above =>
      by_cases hc : (p - a.target_price) / a.target_price * 100 ≥ tp
      · rw [if_pos hc]; simp [hc]
      · rw [if_neg hc]; simp [hc]
    | below =>
      by_cases hc : (p - a.target_price) / a.target_price * 100 ≤ -tp
      · rw [if_pos hc]; simp [hc]
      · rw [if_neg hc]; simp [hc]
  · simp only [alertAction, hty, htp]
    rw [if_neg htp0]
    cases a.direction <;> (repeat' split) <;> simp

/-- Witness for the amended C7 at the spec's concrete input: price 110 on
the 10-percent alert triggers. -/
theorem percentage_change_trigger_witness :
    alertAction pctAlert 110 = .trigger :=
  (percentage_change_trigger pctAlert 110 10 rfl rfl rfl (by norm_num)
      (by norm_num [pctAlert])).1.mpr (Or.inl ⟨rfl, by norm_num [pctAlert]⟩)

/-! ### Claim C10: trailing stop with an unset watermark (corrected) -/

/-- Marking an alert triggered touches neither `trailing_high` nor
`target_price`. -/
theorem statusTriggered_trail_map (alerts : List LocalAlert) (id : String) :
    (updateAlertStatusTriggered alerts id).map (fun b => (b.trailing_high, b.target_price)) =
      alerts.map (fun b => (b.trailing_high, b.target_price)) := by
  simp only [updateAlertStatusTriggered, List.map_map]
  refine List.map_congr_left ?_
  intro b _
  by_cases hb : b.id = id
  · simp [hb]
  · simp [hb]

/-- A trailing_stop alert with no trailing percentage configured. -/
def trailNoPctAlert : LocalAlert :=
  { id := "x1", symbol := "BTCUSDT", target_price := 95, direction := .above,
    alert_type := .trailing_stop, trailing_percent := none, trailing_high := none }

/-- Counterexample to C10 as stated: for a trailing_stop alert with
`trailing_high` unset and direction above, the claim predicts fixed-threshold
behaviour (trigger whenever `price ≤ target_price`), but when
`trailing_percent` is also unset the evaluation skips the branch entirely:
at price 90 with target 95 nothing happens. -/
theorem trailing_unset_watermark_counterexample :
    trailNoPctAlert.trailing_high = none ∧
    trailNoPctAlert.direction = .above ∧
    (90 : ℚ) ≤ trailNoPctAlert.target_price ∧
    alertAction trailNoPctAlert 90 = .noop := by
  exact ⟨rfl, rfl, by norm_num [trailNoPctAlert], by norm_num [alertAction, trailNoPctAlert]⟩

/-- Claim C10 as amended: a trailing_stop alert with nonzero trailingPercent
whose `trailing_high` is unset or 0 never engages the ratchet — the
watermark defaults to the tick's current price, the update branch is
unreachable, `trailing_high` and `target_price` are never rewritten — and it
behaves as a fixed threshold at its stored `target_price` (for direction
above it triggers exactly when `price ≤ target_price`, for direction below
exactly when `price ≥ target_price`); with trailingPercent unset or zero the
alert instead does nothing at all.  Every direction-below trailing alert
created by the trailing-alert UI is in this state: the UI sets
`trailing_high` only for the upward direction. -/
theorem trailing_stop_unset_watermark (a : LocalAlert) (tp : ℚ)
    (hty : a.alert_type = .trailing_stop)
    (htp : a.trailing_percent = some tp) (htp0 : tp ≠ 0)
    (hth : a.trailing_high = none ∨ a.trailing_high = some 0) :
    (∀ p hi target : ℚ, alertAction a p ≠ .updateTrail hi target) ∧
    (∀ st : EngineState, ∀ pd : String → Option ℚ,
      (processAlert st pd a).1.alerts.map (fun b => (b.trailing_high, b.target_price)) =
        st.alerts.map (fun b => (b.trailing_high, b.target_price))) ∧
    (a.direction = .above → ∀ p : ℚ, (alertAction a p = .trigger ↔ p ≤ a.target_price)) ∧
    (a.direction = .below → ∀ p : ℚ, (alertAction a p = .trigger ↔ p ≥ a.target_price)) ∧
    (∀ (symbol : String) (pct cur manual : ℚ) (auto : Bool) (id : String),
      (addTrailingAlertBuild symbol false pct cur auto manual id).trailing_high = none ∧
      (addTrailingAlertBuild symbol false pct cur auto manual id).direction = .below ∧
      (addTrailingAlertBuild symbol false pct cur auto manual id).alert_type =
        .trailing_stop ∧
      (addTrailingAlertBuild symbol false pct cur auto manual id).trailing_percent =
        some pct) := by
  have hact : ∀ p : ℚ, alertAction a p =
      (match a.direction with
       | .above => if p ≤ a.target_price then AlertAction.trigger else .noop
       | .below => if p ≥ a.target_price then AlertAction.trigger else .noop) := by
    intro p
    simp only [alertAction, hty, htp]
    rw [if_neg htp0]
    have hwm : (match a.trailing_high with
        | none => p
        | some h => if h = 0 then p else h) = p := by
      rcases hth with h | h <;> rw [h]
      simp
    rw [hwm]
    cases a.direction <;> dsimp only
    · rw [if_neg (lt_irrefl p)]
    · rw [if_neg (lt_irrefl p)]
  have hna : ∀ p hi target : ℚ, alertAction a p ≠ .updateTrail hi target := by
    intro p hi target
    rw [hact p]
    cases a.direction <;> dsimp only <;> split <;> simp
  refine ⟨hna, ?_, ?_, ?_, ?_⟩
  · intro st pd
    unfold processAlert
    cases pd a.symbol with
    | none => rfl
    | some p =>
      dsimp only
      by_cases hm : a.id ∈ st.triggeredIds
      · rw [if_pos hm]
      · rw [if_neg hm]
        cases hac : alertAction a p with
        | noop => rfl
        | updateTrail hi target => exact absurd hac (hna p hi target)
        | trigger =>
          unfold triggerAlert
          rw [if_neg hm]
          exact statusTriggered_trail_map st.alerts a.id
  · intro hd p
    rw [hact p, hd]
    dsimp only
    split <;> simp_all
  · intro hd p
    rw [hact p, hd]
    dsimp only
    split <;> simp_all
  · intro symbol pct cur manual auto id
    refine ⟨rfl, rfl, rfl, rfl⟩

/-- A trailing_stop alert with a percentage but no stored watermark, as the
UI creates for the downward direction. -/
def trailFixedAlert : LocalAlert :=
  { id := "f1", symbol := "BTCUSDT", target_price := 95, direction := .above,
    alert_type := .trailing_stop, trailing_percent := some 5, trailing_high := none }

/-- Witness for the amended C10: with the watermark unset, price 90 on the
5-percent alert with target 95 triggers like a fixed threshold. -/
theorem trailing_stop_unset_watermark_witness :
    alertAction trailFixedAlert 90 = .trigger :=
  ((trailing_stop_unset_watermark trailFixedAlert 5 rfl rfl (by norm_num)
      (Or.inl rfl)).2.2.1 rfl 90).mpr (by norm_num [trailFixedAlert])

/-! ### Claim C9: trade dispatch never throws -/

/-- A trade-enabled alert used to exercise the dispatcher. -/
def tradeAlert : LocalAlert :=
  { id := "w1", symbol := "BTCUSDT", target_price := 100, direction := .above,
    alert_type := .price_cross, trade_enabled := true }

/-- A strategy record used to exercise the DCA dispatcher. -/
def tradeStrategy : DCAStrategy :=
  { id := "w2", quoteAmount := 50, totalBudget := 100, totalSpent := 0,
    executionCount := 0, frequency := .hourly, scheduledTime := .atStart,
    enabled := true, nextExecuteAt := 0 }

/-- Claim C9: with no stored credentials, `executeAlertTrade` on a
trade-enabled alert and `executeDCATrade` return the typed failure
`{ success: false, error: "No API keys configured" }` without throwing;
and neither dispatcher ever throws — a failing time sync or order placement
is returned as a `{ success: false, error }` value carrying the message. -/
theorem trade_dispatch_no_throw (alert : LocalAlert) (strategy : DCAStrategy)
    (keys : Option StoredKeys) (syncA syncD : Except String Unit)
    (placeA placeD : Except String ℕ) :
    (alert.trade_enabled = true → keys = none →
      executeAlertTrade alert keys syncA placeA =
        .returns (some { success := false, error := some ("No API keys configured") })) ∧
    (keys = none →
      executeDCATrade strategy keys syncD placeD =
        .returns { success := false, error := some ("No API keys configured") }) ∧
    (∀ m, executeAlertTrade alert keys syncA placeA ≠ .throws m) ∧
    (∀ m, executeDCATrade strategy keys syncD placeD ≠ .throws m) ∧
    (∀ e k, alert.trade_enabled = true → keys = some k → syncA = .error e →
      executeAlertTrade alert keys syncA placeA =
        .returns (some { success := false, error := some e })) ∧
    (∀ e u k, alert.trade_enabled = true → keys = some k → syncA = .ok u →
      placeA = .error e →
      executeAlertTrade alert keys syncA placeA =
        .returns (some { success := false, error := some e })) ∧
    (∀ e k, keys = some k → syncD = .error e →
      executeDCATrade strategy keys syncD placeD =
        .returns { success := false, error := some e }) ∧
    (∀ e u k, keys = some k → syncD = .ok u → placeD = .error e →
      executeDCATrade strategy keys syncD placeD =
        .returns { success := false, error := some e }) := by
  refine ⟨?_, ?_, ?_, ?_, ?_, ?_, ?_, ?_⟩
  · intro ht hk
    simp [executeAlertTrade, ht, hk]
  · intro hk
    simp [executeDCATrade, hk]
  · intro m
    unfold executeAlertTrade
    split
    · simp
    · cases keys with
      | none => simp
      | some k =>
        dsimp only
        cases syncA with
        | error e => simp
        | ok u =>
          dsimp only
          cases placeA <;> simp
  · intro m
    unfold executeDCATrade
    cases keys with
    | none => simp
    | some k =>
      dsimp only
      cases syncD with
      | error e => simp
      | ok u =>
        dsimp only
        cases placeD <;> simp
  · intro e k ht hk hs
    simp [executeAlertTrade, ht, hk, hs]
  · intro e u k ht hk hs hp
    simp [executeAlertTrade, ht, hk, hs, hp]
  · intro e k hk hs
    simp [executeDCATrade, hk, hs]
  · intro e u k hk hs hp
    simp [executeDCATrade, hk, hs, hp]

/-- Witness for C9: the concrete alert with no stored keys gets the typed
failure back. -/
theorem trade_dispatch_no_throw_witness :
    executeAlertTrade tradeAlert none (Except.ok ()) (Except.ok 1) =
      .returns (some { success := false, error := some ("No API keys configured") }) :=
  (trade_dispatch_no_throw tradeAlert tradeStrategy none (Except.ok ())
      (Except.ok ()) (Except.ok 1) (Except.ok 1)).1 rfl rfl

/-! ### Claim C3: retry classification of 429 (code bug) -/

/-- Claim C3 contrasted with the code: `isRetryableError` itself classifies
status 429 (and every 5xx, here 500 and 503) as retryable and 400, 401,
403, 404 as not; but `fetchJsonWithRetry` answers a 429 on the first
attempt by rethrowing the RATE_LIMITED error immediately — the catch block
consults `isRetryableError` without the status argument — so only one of
the three configured attempts is made (the Retry-After seconds are carried
on the surfaced error); a 500, by contrast, is retried until the three
attempts are exhausted, with backoff waits in between, and a 404 aborts
immediately by design. -/
theorem rate_limit_not_retried :
    isRetryableError none (some 429) = true ∧
    isRetryableError none (some 500) = true ∧
    isRetryableError none (some 503) = true ∧
    isRetryableError none (some 400) = false ∧
    isRetryableError none (some 401) = false ∧
    isRetryableError none (some 403) = false ∧
    isRetryableError none (some 404) = false ∧
    fetchJsonWithRetry (fun _ => .response 429 (some 7)) 3 300 =
      (.failure { code := "RATE_LIMITED", attempt := 1, status := some 429,
                  retryAfterSec := some 7 }, 1, []) ∧
    fetchJsonWithRetry (fun _ => .response 500 none) 3 300 =
      (.failure { code := "RETRY_EXHAUSTED", attempt := 3 }, 3, [300, 600]) ∧
    fetchJsonWithRetry (fun _ => .response 404 none) 3 300 =
      (.failure { code := "HTTP_ERROR", attempt := 1, status := some 404 }, 1, []) := by
  decide

/-! ### Claim C8: backoff doubling and jitter bounds -/

/-- Loop invariant of `fetchLoop`: starting at attempt `k` with the delays
of attempts `1..k-1` recorded, the run ends having made between 1 and
`maxAttempts` attempts, with exactly the delays `baseDelay * 2^(i-1)` for
each attempt `i` before the last. -/
theorem fetchLoop_delays (att : ℕ → AttemptOutcome) (maxA base : ℕ) :
    ∀ fuel k d, k + fuel = maxA + 1 → 1 ≤ k → k ≤ maxA →
      d = (List.range (k - 1)).map (fun j => backoffDelay base (j + 1)) →
      ((fetchLoop att maxA base fuel k d).2.2 =
        (List.range ((fetchLoop att maxA base fuel k d).2.1 - 1)).map
          (fun j => backoffDelay base (j + 1))) ∧
      1 ≤ (fetchLoop att maxA base fuel k d).2.1 ∧
      (fetchLoop att maxA base fuel k d).2.1 ≤ maxA := by
  intro fuel
  induction fuel with
  | zero =>
    intro k d h1 h2 h3 h4
    omega
  | succ n ih =>
    intro k d h1 h2 h3 h4
    simp only [fetchLoop]
    cases hstep : attemptStep (att k) k with
    | done r =>
      dsimp only
      exact ⟨by rw [h4], h2, h3⟩
    | retryStep e =>
      dsimp only
      split
      · next hk =>
        refine ih (k + 1) _ (by omega) (by omega) (by omega) ?_
        rw [h4]
        have hk1 : k - 1 + 1 = k := by omega
        have hsingle : [backoffDelay base k] =
            List.map (fun j => backoffDelay base (j + 1)) [k - 1] := by
          simp [hk1]
        rw [hsingle, ← List.map_append, ← List.range_succ]
        congr 2
      · next hk =>
        exact ⟨by rw [h4], h2, h3⟩

/-- Rounding moves the jittered delay by at most one half. -/
theorem addJitter_bounds (delay jitterPercent randomFactor : ℚ)
    (hd : 0 ≤ delay) (hjp : 0 ≤ jitterPercent)
    (h1 : -1 ≤ randomFactor) (h2 : randomFactor ≤ 1) :
    delay * (1 - jitterPercent / 100) - 1 / 2 ≤
        (addJitter delay jitterPercent randomFactor : ℚ) ∧
      (addJitter delay jitterPercent randomFactor : ℚ) ≤
        delay * (1 + jitterPercent / 100) + 1 / 2 := by
  unfold addJitter
  have hj : 0 ≤ delay * (jitterPercent / 100) := by positivity
  have hb1 : -(delay * (jitterPercent / 100)) ≤ delay * (jitterPercent / 100) * randomFactor := by
    nlinarith
  have hb2 : delay * (jitterPercent / 100) * randomFactor ≤ delay * (jitterPercent / 100) := by
    nlinarith
  have hr := abs_sub_round (delay + delay * (jitterPercent / 100) * randomFactor)
  rw [abs_le] at hr
  constructor <;> nlinarith [hr.1, hr.2]

/-- Claim C8: a run of `fetchJsonWithRetry` applies, between consecutive
attempts, exactly the un-jittered delays `baseDelay * 2^(i-1)` for the
attempts `i = 1, …` before the last one made — one delay fewer than
attempts, so none after the final attempt; the formula strictly doubles
from each attempt to the next; and for every random factor in [-1, 1] the
jittered delay stays within `delay * (1 ± jitterPercent/100)` up to the
half-unit rounding of `Math.round`. -/
theorem backoff_doubling_and_jitter (att : ℕ → AttemptOutcome) (maxA base : ℕ)
    (hA : 1 ≤ maxA) (hb : 1 ≤ base) :
    ((fetchJsonWithRetry att maxA base).2.2 =
      (List.range ((fetchJsonWithRetry att maxA base).2.1 - 1)).map
        (fun j => backoffDelay base (j + 1))) ∧
    ((fetchJsonWithRetry att maxA base).2.2.length + 1 =
      (fetchJsonWithRetry att maxA base).2.1) ∧
    ((fetchJsonWithRetry att maxA base).2.1 ≤ maxA) ∧
    (∀ i, 1 ≤ i → backoffDelay base (i + 1) = 2 * backoffDelay base i ∧
      backoffDelay base i < backoffDelay base (i + 1)) ∧
    (∀ delay jitterPercent randomFactor : ℚ, 0 ≤ delay → 0 ≤ jitterPercent →
      -1 ≤ randomFactor → randomFactor ≤ 1 →
      delay * (1 - jitterPercent / 100) - 1 / 2 ≤
          (addJitter delay jitterPercent randomFactor : ℚ) ∧
        (addJitter delay jitterPercent randomFactor : ℚ) ≤
          delay * (1 + jitterPercent / 100) + 1 / 2) := by
  have h := fetchLoop_delays att maxA base maxA 1 [] (by omega) (by omega) hA (by simp)
  refine ⟨h.1, ?_, h.2.2, ?_, addJitter_bounds⟩
  · have h1 := h.2.1
    unfold fetchJsonWithRetry at h1 ⊢
    rw [h.1]
    simp only [List.length_map, List.length_range]
    omega
  · intro i hi
    have hi1 : i - 1 + 1 = i := by omega
    constructor
    · unfold backoffDelay
      rw [Nat.add_sub_cancel]
      calc base * 2 ^ i = base * 2 ^ (i - 1 + 1) := by rw [hi1]
        _ = 2 * (base * 2 ^ (i - 1)) := by ring
    · unfold backoffDelay
      rw [Nat.add_sub_cancel]
      have hpow : (2 : ℕ) ^ (i - 1) < 2 ^ i := by
        exact Nat.pow_lt_pow_right (by norm_num) (by omega)
      exact mul_lt_mul_of_pos_left hpow (by omega)

/-- Witness for C8: three attempts against a persistent 500 record exactly
the delays for attempts 1 and 2. -/
theorem backoff_doubling_and_jitter_witness :
    (fetchJsonWithRetry (fun _ => AttemptOutcome.response 500 none) 3 300).2.2 =
      (List.range
        ((fetchJsonWithRetry (fun _ => AttemptOutcome.response 500 none) 3 300).2.1 - 1)).map
        (fun j => backoffDelay 300 (j + 1)) :=
  (backoff_doubling_and_jitter (fun _ => AttemptOutcome.response 500 none) 3 300
    (by norm_num) (by norm_num)).1

/-! ### Claim C5: DCA execution bookkeeping and budget closure -/

/-- The spec's budget-closure strategy: budget 100, 50 per execution,
scheduled hourly at the start of the hour. -/
def budgetStrategy : DCAStrategy :=
  { id := "d1", quoteAmount := 50, totalBudget := 100, totalSpent := 0,
    executionCount := 0, frequency := .hourly, scheduledTime := .atStart,
    enabled := true, nextExecuteAt := 0 }

/-- `budgetStrategy` after its first execution (checked at 01:25:00). -/
def budgetStrategy1 : DCAStrategy :=
  { budgetStrategy with totalSpent := 50, executionCount := 1, nextExecuteAt := 7200000 }

/-- `budgetStrategy` after its second execution (checked at 02:00:30):
budget reached, disabled. -/
def budgetStrategy2 : DCAStrategy :=
  { budgetStrategy with
      totalSpent := 100, executionCount := 2, nextExecuteAt := 10800000, enabled := false }

/-- Claim C5: within one scheduler session a strategy executes at most once
per `(strategyId, nextExecuteAt)` key; the written bookkeeping is the same
whether the trade succeeded or failed — `totalSpent` grows by
`quoteAmount`, `executionCount` by one, `nextExecuteAt` is recomputed from
the frequency rule at `now`, and `enabled` is forced to `false` exactly when
the new `totalSpent` reaches `totalBudget`; the concrete strategy with
budget 100 and amount 50 is disabled after exactly two executions with
`totalSpent = 100`, and a later check cycle leaves it untouched. -/
theorem dca_execute_once_and_budget (st : SchedulerState) (tok1 tok2 : Bool)
    (now : ℕ) (strategy : DCAStrategy) :
    ((strategy.id, strategy.nextExecuteAt) ∈ st.executedKeys →
      executeStrategy st tok1 now strategy = some (st, false)) ∧
    (executeStrategy st tok1 now strategy = executeStrategy st tok2 now strategy) ∧
    (∀ nextAt st2 b,
      (strategy.id, strategy.nextExecuteAt) ∉ st.executedKeys →
      computeNextExecution strategy.frequency strategy.scheduledTime strategy.dayOfWeek now =
        some nextAt →
      executeStrategy st tok1 now strategy = some (st2, b) →
      b = true ∧
      st2.executedKeys = (strategy.id, strategy.nextExecuteAt) :: st.executedKeys ∧
      (∀ s, s ∈ st.strategies → s.id = strategy.id →
        applyExecutionUpdates s nextAt ∈ st2.strategies ∧
        (applyExecutionUpdates s nextAt).totalSpent = s.totalSpent + s.quoteAmount ∧
        (applyExecutionUpdates s nextAt).executionCount = s.executionCount + 1 ∧
        (applyExecutionUpdates s nextAt).nextExecuteAt = nextAt ∧
        (s.enabled = true →
          ((applyExecutionUpdates s nextAt).enabled = false ↔
            s.totalBudget ≤ s.totalSpent + s.quoteAmount)))) ∧
    (checkCycle { strategies := [budgetStrategy], executedKeys := [] } tok1 5100000 =
        some { strategies := [budgetStrategy1], executedKeys := [(("d1"), 0)] } ∧
      checkCycle { strategies := [budgetStrategy1],
                   executedKeys := [(("d1"), 0)] } tok1 7230000 =
        some { strategies := [budgetStrategy2],
               executedKeys := [(("d1"), 7200000), (("d1"), 0)] } ∧
      checkCycle { strategies := [budgetStrategy2],
                   executedKeys := [(("d1"), 7200000), (("d1"), 0)] } tok1 10900000 =
        some { strategies := [budgetStrategy2],
               executedKeys := [(("d1"), 7200000), (("d1"), 0)] } ∧
      budgetStrategy2.totalSpent = 100 ∧ budgetStrategy2.executionCount = 2 ∧
      budgetStrategy2.enabled = false) := by
  refine ⟨?_, rfl, ?_, ?_, ?_, ?_, by norm_num [budgetStrategy2], rfl, rfl⟩
  · intro h
    unfold executeStrategy
    rw [if_pos h]
  · intro nextAt st2 b hmem hnext hexec
    have hval : executeStrategy st tok1 now strategy =
        some ({ strategies := st.strategies.map fun s =>
                  if s.id = strategy.id then applyExecutionUpdates s nextAt else s,
                executedKeys := (strategy.id, strategy.nextExecuteAt) :: st.executedKeys },
              true) := by
      unfold executeStrategy
      rw [if_neg hmem, hnext]
    rw [hval] at hexec
    injection hexec with h12
    injection h12 with hA hb
    subst hA
    subst hb
    refine ⟨rfl, rfl, ?_⟩
    intro s hs hid
    refine ⟨?_, rfl, rfl, rfl, ?_⟩
    · have hf : (if s.id = strategy.id then applyExecutionUpdates s nextAt else s) =
          applyExecutionUpdates s nextAt := if_pos hid
      exact hf ▸ List.mem_map_of_mem _ hs
    · intro hen
      simp only [applyExecutionUpdates]
      split
      · next hex => exact ⟨fun _ => hex, fun _ => rfl⟩
      · next hex =>
        rw [hen]
        exact ⟨fun h => absurd h (by simp), fun h => absurd h hex⟩
  · norm_num [checkCycle, executeStrategy, applyExecutionUpdates, computeNextExecution,
      hourFloor, getMinutes, getSeconds, msPerHour, msPerMinute,
      budgetStrategy, budgetStrategy1]
  · norm_num [checkCycle, executeStrategy, applyExecutionUpdates, computeNextExecution,
      hourFloor, getMinutes, getSeconds, msPerHour, msPerMinute,
      budgetStrategy, budgetStrategy1, budgetStrategy2]
  · norm_num [checkCycle, executeStrategy, applyExecutionUpdates, computeNextExecution,
      hourFloor, getMinutes, getSeconds, msPerHour, msPerMinute,
      budgetStrategy, budgetStrategy2]

/-- Witness for C5: an already-recorded `(id, nextExecuteAt)` key makes the
execution a no-op. -/
theorem dca_execute_once_and_budget_witness :
    executeStrategy { strategies := [budgetStrategy], executedKeys := [(("d1"), 0)] }
        true 5100000 budgetStrategy =
      some ({ strategies := [budgetStrategy], executedKeys := [(("d1"), 0)] }, false) :=
  (dca_execute_once_and_budget
      { strategies := [budgetStrategy], executedKeys := [(("d1"), 0)] }
      true true 5100000 budgetStrategy).1 (by decide)

/-! ### Claim C4: schedule computation (corrected) -/

/-- Outside the hourly/'start' first-half-minute edge, the computed next
execution lies strictly after `now`. -/
theorem computeNextExecution_gt (freq : Frequency) (st : ScheduledTime)
    (dow : Option ℕ) (now r : ℕ)
    (h : computeNextExecution freq st dow now = some r)
    (hne : ¬(freq = .hourly ∧ st = .atStart ∧ getMinutes now = 0 ∧ getSeconds now < 30)) :
    now < r := by
  cases freq with
  | hourly =>
    cases st with
    | atStart =>
      have hcond : ¬(getMinutes now = 0 ∧ getSeconds now < 30) :=
        fun hc => hne ⟨rfl, rfl, hc.1, hc.2⟩
      simp only [computeNextExecution, Option.some.injEq] at h
      rw [if_neg hcond] at h
      simp only [hourFloor, msPerHour] at h
      omega
    | atEnd =>
      simp only [computeNextExecution, Option.some.injEq, hourFloor, msPerHour,
        msPerMinute] at h
      split at h <;> omega
    | hhmm hh mm =>
      simp only [computeNextExecution, Option.some.injEq, hourFloor, msPerHour] at h
      omega
  | daily =>
    cases st with
    | hhmm hh mm =>
      simp only [computeNextExecution, Option.some.injEq, dayFloor, msPerDay,
        msPerHour, msPerMinute] at h
      split at h <;> omega
    | atStart => simp [computeNextExecution] at h
    | atEnd => simp [computeNextExecution] at h
  | weekly =>
    cases dow with
    | none =>
      simp only [computeNextExecution, Option.some.injEq] at h
      omega
    | some dw =>
      cases st with
      | hhmm hh mm =>
        simp only [computeNextExecution, Option.some.injEq, dayFloor, msPerDay,
          msPerHour, msPerMinute, getDay] at h
        repeat' split at h
        all_goals omega
      | atStart => simp [computeNextExecution] at h
      | atEnd => simp [computeNextExecution] at h

/-- In the hourly/'start' edge the function returns the start of the current
hour: at most `now`, and never more than 30 seconds behind it. -/
theorem computeNextExecution_hourly_start_edge (dow : Option ℕ) (now r : ℕ)
    (h : computeNextExecution .hourly .atStart dow now = some r)
    (h1 : getMinutes now = 0) (h2 : getSeconds now < 30) :
    r = hourFloor now ∧ r ≤ now ∧ now < r + 30000 := by
  simp only [computeNextExecution, Option.some.injEq] at h
  rw [if_pos ⟨h1, h2⟩] at h
  simp only [getMinutes, getSeconds, msPerMinute] at h1 h2
  simp only [hourFloor, msPerHour] at h ⊢
  omega

/-- `computeNextExecution` is monotone in `now` for a fixed schedule, so a
recomputation at a later instant never yields an earlier timestamp. -/
theorem computeNextExecution_mono (freq : Frequency) (st : ScheduledTime)
    (dow : Option ℕ) (now1 now2 r1 r2 : ℕ) (h12 : now1 ≤ now2)
    (h1 : computeNextExecution freq st dow now1 = some r1)
    (h2 : computeNextExecution freq st dow now2 = some r2) : r1 ≤ r2 := by
  cases freq <;> cases st <;> cases dow <;>
    simp only [computeNextExecution, Option.some.injEq, hourFloor, dayFloor,
      getMinutes, getSeconds, getDay, msPerMinute, msPerHour, msPerDay] at h1 h2 <;>
    (repeat' split at h1) <;> (repeat' split at h2) <;>
    first
    | omega
    | exact absurd h1 (by simp)

/-- Counterexample to C4 as stated: for frequency hourly, scheduledTime
'start' and `now` 15 seconds past the epoch hour boundary (minutes 0,
seconds 15), the computed next execution is the hour boundary itself, 15
seconds in the past — not strictly greater than `now`. -/
theorem computeNextExecution_not_strictly_greater :
    computeNextExecution .hourly .atStart none 15000 = some 0 ∧
    getMinutes 15000 = 0 ∧ getSeconds 15000 = 15 ∧ (0 : ℕ) < 15000 := by
  refine ⟨by decide, by decide, by decide, by decide⟩

/-- Claim C4 as amended: for every input on which `computeNextExecution`
returns (daily and weekly schedules need a parseable HH:MM time), the result
is strictly greater than `now` — except for frequency hourly with
scheduledTime 'start' when `now` lies in the first 30 seconds of an hour,
where the result is the start of the current hour: at most `now` and less
than 30 seconds behind it.  Repeated application never regresses: for a
fixed schedule the function is monotone in `now`. -/
theorem computeNextExecution_monotone_amended :
    (∀ (freq : Frequency) (st : ScheduledTime) (dow : Option ℕ) (now r : ℕ),
      computeNextExecution freq st dow now = some r →
      ¬(freq = .hourly ∧ st = .atStart ∧ getMinutes now = 0 ∧ getSeconds now < 30) →
      now < r) ∧
    (∀ (dow : Option ℕ) (now r : ℕ),
      computeNextExecution .hourly .atStart dow now = some r →
      getMinutes now = 0 → getSeconds now < 30 →
      r = hourFloor now ∧ r ≤ now ∧ now < r + 30000) ∧
    (∀ (freq : Frequency) (st : ScheduledTime) (dow : Option ℕ) (now1 now2 r1 r2 : ℕ),
      now1 ≤ now2 →
      computeNextExecution freq st dow now1 = some r1 →
      computeNextExecution freq st dow now2 = some r2 → r1 ≤ r2) :=
  ⟨computeNextExecution_gt,
   fun dow now r h h1 h2 => computeNextExecution_hourly_start_edge dow now r h h1 h2,
   fun freq st dow now1 now2 r1 r2 h12 h1 h2 =>
     computeNextExecution_mono freq st dow now1 now2 r1 r2 h12 h1 h2⟩

/-- Witness for the amended C4: a daily 09:30 schedule computed at the epoch
and again 40000000 ms later both land after their respective `now`, and the
later recomputation does not regress. -/
theorem computeNextExecution_monotone_amended_witness :
    computeNextExecution .daily (.hhmm 9 30) none 0 = some 34200000 ∧
    computeNextExecution .daily (.hhmm 9 30) none 40000000 = some 120600000 ∧
    (0 : ℕ) < 34200000 ∧ (34200000 : ℕ) ≤ 120600000 :=
  ⟨by decide, by decide,
   computeNextExecution_monotone_amended.1 .daily (.hhmm 9 30) none 0 34200000
     (by decide) (by simp),
   computeNextExecution_monotone_amended.2.2 .daily (.hhmm 9 30) none 0 40000000
     34200000 120600000 (by norm_num) (by decide) (by decide)⟩

end ConcentricTicker
